import Mathlib

/-!
Shallow embedding of the core of qms_blinding_map_to_csv_and_merge_v5_1.py
(the blinding-resolution, multi-source merge and comparison-reconciliation
engine).  Python strings are Lean String values; Python dicts used as keyed
tables are association lists with first-match lookup; fallible code returns
Except.  Each definition mirrors the source function whose name it carries.
-/

deriving instance DecidableEq for Except

namespace QMS

/-- Python str.upper on the character list of a string (labels are ASCII). -/
def pyUpper (s : String) : String :=
  String.mk (s.data.map Char.toUpper)

/-- The whitespace set removed by Python str.strip. -/
def pyWS (c : Char) : Bool :=
  c == ' ' || c == '\t' || c == '\n' || c == '\r' || c == '\x0b' || c == '\x0c'

/-- Python str.strip: drop whitespace from both ends. -/
def pyStrip (s : String) : String :=
  String.mk (((s.data.dropWhile pyWS).reverse.dropWhile pyWS).reverse)

/-- Python truth test on a string: empty means falsy. -/
def strIsEmpty (s : String) : Bool :=
  s.data.isEmpty

/-- Python str.startswith, on character lists. -/
def strStartsWith (pre s : String) : Bool :=
  List.isPrefixOf pre.data s.data

/-- Python str.endswith, on character lists. -/
def strEndsWith (suf s : String) : Bool :=
  List.isSuffixOf suf.data s.data

/-- Python slicing s[n:], on character lists. -/
def strDrop (s : String) (n : Nat) : String :=
  String.mk (s.data.drop n)

/-- Substring occurrence test on character lists: needle occurs inside hay. -/
def hasSub (needle : List Char) : List Char → Bool
  | [] => needle.isEmpty
  | c :: t => List.isPrefixOf needle (c :: t) || hasSub needle t

/-- Python membership test:  needle in hay  for strings. -/
def inStr (needle hay : String) : Bool :=
  hasSub needle.data hay.data

def tamperMarker : String := "TAMPER"

def workingTamperMarker : String := "WORKING_TAMPER"

/-- _looks_tamper: tight tamper detection, requires an explicit marker. -/
def looksTamper (s : String) : Bool :=
  let x := pyUpper s
  inStr workingTamperMarker x || inStr tamperMarker x

def pcReexportCue : String := "PC_REEXPORT"

def pcUnderCue : String := "_PC"

def underPcCue : String := "PC_"

def packetCue : String := "PACKET"

/-- _looks_pc: positive-control naming cues. -/
def looksPc (s : String) : Bool :=
  let x := pyUpper s
  inStr pcReexportCue x || (inStr pcUnderCue x && inStr packetCue x) ||
    (inStr underPcCue x && inStr packetCue x)

/-- The packet kinds returned by _a_type (as strings in the source). -/
inductive PacketKind where
  | TAMPER
  | PC
  | BASELINE
  deriving DecidableEq

/-- _a_type: priority-ordered classifier, tamper checked first. -/
def aType (s : String) : PacketKind :=
  if looksTamper s then PacketKind.TAMPER
  else if looksPc s then PacketKind.PC
  else PacketKind.BASELINE

def cand01 : String := "QMSv5_01"

def cand02 : String := "QMSv5_02"

def ruleATamper : String := "A=TAMPER -> match=tamper"

def ruleAPc : String := "A=PC -> match=pc"

def ruleAPcFallback : String := "A=PC -> match=non-tamper fallback"

def ruleABaseline : String := "A=BASELINE -> match=non-tamper"

def msgMissingSrc : String := "Missing A_src or candidate src"

def msgAmbTamper : String := "Ambiguous: A is TAMPER but candidates not uniquely tamper"

def msgAmbPc : String := "Ambiguous: A is PC but candidates not uniquely PC or tamper-distinguishable"

def msgAmbBaseline : String := "Ambiguous: BASELINE arm but neither candidate looks tamper"

/-- determine_expected_match: returns (expected match, expected mismatch,
rule) or refuses.  Exceptions are modelled as Except.error with the
corresponding message. -/
def determineExpectedMatch (aSrc q1 q2 : String) :
    Except String (String × String × String) :=
  let a := pyStrip aSrc
  let s1 := pyStrip q1
  let s2 := pyStrip q2
  if strIsEmpty a || strIsEmpty s1 || strIsEmpty s2 then
    Except.error msgMissingSrc
  else
    let aKind := aType a
    let c1t := looksTamper s1
    let c2t := looksTamper s2
    let c1pc := looksPc s1
    let c2pc := looksPc s2
    if aKind = PacketKind.TAMPER then
      if c1t && !c2t then Except.ok (cand01, cand02, ruleATamper)
      else if c2t && !c1t then Except.ok (cand02, cand01, ruleATamper)
      else Except.error msgAmbTamper
    else if aKind = PacketKind.PC then
      if c1pc && !c2pc then Except.ok (cand01, cand02, ruleAPc)
      else if c2pc && !c1pc then Except.ok (cand02, cand01, ruleAPc)
      else if c1t && !c2t then Except.ok (cand02, cand01, ruleAPcFallback)
      else if c2t && !c1t then Except.ok (cand01, cand02, ruleAPcFallback)
      else Except.error msgAmbPc
    else
      if c1t && !c2t then Except.ok (cand02, cand01, ruleABaseline)
      else if c2t && !c1t then Except.ok (cand01, cand02, ruleABaseline)
      else Except.error msgAmbBaseline

/-- True exactly when an Except value is an error. -/
def isErr {ε α : Type} : Except ε α → Bool
  | Except.error _ => true
  | Except.ok _ => false

def legacyGroupTag : String := "IIIA_"

/-- norm_group: strip surrounding whitespace and a known legacy group tag
of five characters. -/
def normGroup (g : String) : String :=
  let x := pyStrip g
  if strStartsWith legacyGroupTag x then strDrop x 5 else x

/-- One mapping row as built by flatten_map / parse_pc_override_fragments.
The optional map_manual_override_flag dict entry is a Nat defaulting to 0,
exactly as the reconciler reads it with a 0 default. -/
structure MappingRow where
  node_scope : String
  group : String
  arm : String
  status : String
  expected_match_candidate : String
  expected_mismatch_candidate : String
  rule : String
  A_src : String
  QMSv5_01_src : String
  QMSv5_02_src : String
  map_job_id : String
  map_source_file : String
  map_source_sha256 : String
  map_manual_override_flag : Nat := 0
  deriving DecidableEq

/-- The authoritative merge key (node_scope, group, arm). -/
abbrev MapKey := String × String × String

def rowKey (r : MappingRow) : MapKey :=
  (r.node_scope, r.group, r.arm)

/-- The mapping dictionary, as an association list with first-match lookup
(keys stay unique because insertion replaces in place, as dicts do). -/
abbrev Mapping := List (MapKey × MappingRow)

/-- Python dict lookup mapping.get(key). -/
def mapGet : Mapping → MapKey → Option MappingRow
  | [], _ => none
  | (k2, r) :: t, k => if k = k2 then some r else mapGet t k

/-- Python dict assignment mapping[key] = row: replace in place if the key
exists, append otherwise. -/
def mapSet : Mapping → MapKey → MappingRow → Mapping
  | [], k, r => [(k, r)]
  | (k2, r2) :: t, k, r =>
    if k = k2 then (k, r) :: t else (k2, r2) :: mapSet t k r

def msgConflict : String := "Conflicting active mappings"

/-- put(row, force): per-row insertion rule of the merge engine.  The Python
function mutates the dictionary and raises ValueError on an active/active
conflict; here it returns the updated mapping or an error. -/
def put (m : Mapping) (row : MappingRow) (force : Bool) :
    Except String Mapping :=
  let key := rowKey row
  match mapGet m key with
  | none => Except.ok (mapSet m key row)
  | some ex =>
    if force then Except.ok (mapSet m key row)
    else if ex.status = "pending" ∧ row.status = "active" then
      Except.ok (mapSet m key row)
    else if ex.status = "active" ∧ row.status = "active" then
      if ex.expected_match_candidate ≠ row.expected_match_candidate then
        Except.error msgConflict
      else Except.ok m
    else Except.ok m

/-- One extracted PC-override JSON fragment (the fields the source reads). -/
structure Fragment where
  group : String
  arm : String
  A_src : String
  QMSv5_01_src : String
  QMSv5_02_src : String
  deriving DecidableEq

def overrideJobId : String := "StageIV_Node03_PC_OVERRIDE"

def overrideScope : String := "Node03_HVT_A_COMPLETED"

/-- The row parse_pc_override_fragments builds for one fragment. -/
def buildPcRow (srcFile srcSha : String) (a : Fragment) :
    Except String MappingRow :=
  match determineExpectedMatch a.A_src a.QMSv5_01_src a.QMSv5_02_src with
  | Except.error e => Except.error e
  | Except.ok (em, emm, rule) =>
    Except.ok
      { node_scope := overrideScope
        group := normGroup a.group
        arm := a.arm
        status := "active"
        expected_match_candidate := em
        expected_mismatch_candidate := emm
        rule := rule
        A_src := a.A_src
        QMSv5_01_src := a.QMSv5_01_src
        QMSv5_02_src := a.QMSv5_02_src
        map_job_id := overrideJobId
        map_source_file := srcFile
        map_source_sha256 := srcSha
        map_manual_override_flag := 1 }

def msgNoFragments : String := "Could not extract PC override fragments"

/-- The fragment loop: one row per fragment in order, the first resolver
failure aborts the whole parse. -/
def buildPcRows (srcFile srcSha : String) :
    List Fragment → Except String (List MappingRow)
  | [] => Except.ok []
  | a :: t =>
    match buildPcRow srcFile srcSha a with
    | Except.error e => Except.error e
    | Except.ok r =>
      match buildPcRows srcFile srcSha t with
      | Except.error e => Except.error e
      | Except.ok rs => Except.ok (r :: rs)

/-- parse_pc_override_fragments: fail when no fragment was extracted, else
build one active override row per fragment. -/
def parsePcOverrideFragments (frags : List Fragment)
    (srcFile srcSha : String) : Except String (List MappingRow) :=
  if frags.isEmpty then Except.error msgNoFragments
  else buildPcRows srcFile srcSha frags

/-- A comparison CSV record: an association list of column name and value,
as produced by csv.DictReader. -/
abbrev Record := List (String × String)

/-- First-match association lookup, the dict lookup r.get(k). -/
def lookupField (k : String) : Record → Option String
  | [] => none
  | (k2, v) :: t => if k = k2 then some v else lookupField k t

/-- Python (r.get(k) or ""): missing key and empty value both give "". -/
def rget (k : String) (r : Record) : String :=
  (lookupField k r).getD ""

def fnNodeId : String := "node_id"

def fnGroup : String := "group"

def fnArm : String := "arm"

def fnCompareFolder : String := "compare_folder"

def fnCandidateLabel : String := "candidate_label"

def fnPassFail : String := "pass_fail"

def passToken : String := "PASS"

def suffix01 : String := "_01"

def suffix02 : String := "_02"

/-- candidate_label_from_compare_folder: map a trailing slot token to the
candidate identifier, anything else to the empty label. -/
def candidateLabelFromCompareFolder (cf : String) : String :=
  if strEndsWith suffix01 cf then cand01
  else if strEndsWith suffix02 cf then cand02
  else ""

def compNode (r : Record) : String := pyStrip (rget fnNodeId r)

def compGroup (r : Record) : String := normGroup (pyStrip (rget fnGroup r))

def compArm (r : Record) : String := pyStrip (rget fnArm r)

/-- The node-specific lookup key built for one comparison record. -/
def compKeyNode (r : Record) : MapKey :=
  (compNode r, compGroup r, compArm r)

def wildcardScope : String := "ALL"

/-- The wildcard lookup key built for one comparison record. -/
def keyAll (r : Record) : MapKey :=
  (wildcardScope, compGroup r, compArm r)

/-- mapping.get(key_node) or mapping.get(key_all).  A row dict retrieved for
the node key is a non-empty dict, hence truthy, so the wildcard key is only
consulted when the node-specific key is absent. -/
def lookupMapping (mp : Mapping) (r : Record) : Option MappingRow :=
  match mapGet mp (compKeyNode r) with
  | some m => some m
  | none => mapGet mp (keyAll r)

/-- The candidate label of a record: an explicit candidate_label field if
non-empty after stripping, else derived from the compare_folder suffix. -/
def candidateLabel (r : Record) : String :=
  let cl := pyStrip (rget fnCandidateLabel r)
  if strIsEmpty cl then
    candidateLabelFromCompareFolder (pyStrip (rget fnCompareFolder r))
  else cl

def scriptName : String := "qms_blinding_map_to_csv_and_merge_v5_1.py"

def scriptVersion : String := "5.1.0"

/-- The additive fields the reconciler computes for one matched record.
Integer flags are written as their digit strings, the form they take in the
emitted CSV. -/
def enrichPairs (r : Record) (m : MappingRow) : Record :=
  let cl := candidateLabel r
  let isEm := if cl = m.expected_match_candidate then "1" else "0"
  let isEmm := if cl = m.expected_mismatch_candidate then "1" else "0"
  let omp := if lookupField fnPassFail r = some passToken then "1" else "0"
  let cc := if omp = isEm then "1" else "0"
  [ ( "blinding_map_status", m.status),
    ( "expected_match_candidate", m.expected_match_candidate),
    ( "expected_mismatch_candidate", m.expected_mismatch_candidate),
    ( "is_expected_match_candidate", isEm),
    ( "is_expected_mismatch_candidate", isEmm),
    ( "observed_match_via_pass", omp),
    ( "classification_correct", cc),
    ( "blinding_map_rule", m.rule),
    ( "blinding_map_source_file", m.map_source_file),
    ( "blinding_map_source_sha256", m.map_source_sha256),
    ( "blinding_map_job_id", m.map_job_id),
    ( "blinding_map_manual_override_flag",
      toString m.map_manual_override_flag),
    ( "blinding_parser_script", scriptName),
    ( "blinding_parser_version", scriptVersion) ]

/-- merged = dict(r); merged.update(new fields).  For lookups the updated
dict behaves as new fields first, then the original record, which is what
prepending gives with first-match lookup; no claim depends on column order. -/
def enrichWith (r : Record) (m : MappingRow) : Record :=
  enrichPairs r m ++ r

/-- The names of the fields merged.update adds. -/
def newFieldNames : List String :=
  [ "blinding_map_status",
    "expected_match_candidate",
    "expected_mismatch_candidate",
    "is_expected_match_candidate",
    "is_expected_mismatch_candidate",
    "observed_match_via_pass",
    "classification_correct",
    "blinding_map_rule",
    "blinding_map_source_file",
    "blinding_map_source_sha256",
    "blinding_map_job_id",
    "blinding_map_manual_override_flag",
    "blinding_parser_script",
    "blinding_parser_version" ]

/-- The per-record loop of main over comp_rows: returns (out_rows,
missing_map) in input order. -/
def reconcileLoop (mp : Mapping) : List Record → List Record × List MapKey
  | [] => ([], [])
  | r :: rest =>
    let res := reconcileLoop mp rest
    match lookupMapping mp r with
    | some mrow =>
      if mrow.status = "active" then (enrichWith r mrow :: res.1, res.2)
      else (res.1, compKeyNode r :: res.2)
    | none => (res.1, compKeyNode r :: res.2)

/-- Lexicographic strict order on character lists by code point, the
comparison Python uses between strings. -/
def charListLt : List Char → List Char → Bool
  | _, [] => false
  | [], _ :: _ => true
  | a :: s, b :: t =>
    decide (a.toNat < b.toNat) || (a == b && charListLt s t)

/-- Lexicographic order on merge keys, the order sorted() uses on the
(node, group, arm) tuples. -/
def keyLe (a b : MapKey) : Bool :=
  if a.1 ≠ b.1 then charListLt a.1.data b.1.data
  else if a.2.1 ≠ b.2.1 then charListLt a.2.1.data b.2.1.data
  else a.2.2 = b.2.2 || charListLt a.2.2.data b.2.2.data

def insertKey (k : MapKey) : List MapKey → List MapKey
  | [] => [k]
  | x :: t => if keyLe k x then k :: x :: t else x :: insertKey k t

def sortKeys : List MapKey → List MapKey
  | [] => []
  | x :: t => insertKey x (sortKeys t)

def dedupKeys : List MapKey → List MapKey
  | [] => []
  | x :: t => let t2 := dedupKeys t; if x ∈ t2 then t2 else x :: t2

/-- sorted(set(missing_map)): the deduplicated, ascending key list. -/
def sortedUniq (l : List MapKey) : List MapKey :=
  sortKeys (dedupKeys l)

/-- The reconciliation stage of main: enrich every record, then fail closed
when any key had no active mapping.  The raised RuntimeError message embeds
len(uniq) and uniq[:8], modelled as the error payload; on error nothing is
emitted. -/
def reconcileAll (mp : Mapping) (rs : List Record) :
    Except (Nat × List MapKey) (List Record) :=
  let res := reconcileLoop mp rs
  if res.2.isEmpty then Except.ok res.1
  else
    let uniq := sortedUniq res.2
    Except.error (uniq.length, uniq.take 8)

/-- The enrichment main applies to a record whose lookup succeeds; the none
branch is never reached for records that reconcile. -/
def enrichStep (mp : Mapping) (r : Record) : Record :=
  match lookupMapping mp r with
  | some mrow => enrichWith r mrow
  | none => r

/-- Whether a record resolves (node-specific first, wildcard fallback) to an
active mapping row. -/
def activeResolved (mp : Mapping) (r : Record) : Bool :=
  match lookupMapping mp r with
  | some mrow => decide (mrow.status = "active")
  | none => false

/-- Restricting the enriched record to the original field names gives back
the original record (lookup by lookup). -/
def preservesOriginal (r out : Record) : Prop :=
  ∀ k ∈ r.map Prod.fst, lookupField k out = lookupField k r

/-! Concrete data used by the witness theorems below. -/

def hmacLabel : String := "HMAC"

def pcTamperLabel : String := "HVT_PC_REEXPORT_TAMPER_PACKET"

def exRefBaseline : String := "BASELINE_A_SRC"

def exCandTamper : String := "QMS_CANDIDATE_WORKING_TAMPER"

def exCandNormal : String := "QMS_CANDIDATE_NORMAL"

def emptyLabel : String := ""

def tamperRefLabel : String := "REF_TAMPER_X"

def tamperCand1 : String := "CAND_TAMPER_1"

def tamperCand2 : String := "CAND_TAMPER_2"

/-- A fully active mapping row, as flatten_map emits for a baseline arm. -/
def rowW : MappingRow :=
  { node_scope := "Node02_HVT_A_COMPLETED"
    group := "G1"
    arm := "a1"
    status := "active"
    expected_match_candidate := "QMSv5_01"
    expected_mismatch_candidate := "QMSv5_02"
    rule := "A=BASELINE -> match=non-tamper"
    A_src := "BASELINE_A_SRC"
    QMSv5_01_src := "CAND_NORMAL"
    QMSv5_02_src := "CAND_WORKING_TAMPER"
    map_job_id := "StageIV_Node02"
    map_source_file := "stage_iv.md"
    map_source_sha256 := "sha-iv" }

/-- The same key with the conflicting expected-match value. -/
def rowWConflict : MappingRow :=
  { rowW with expected_match_candidate := "QMSv5_02" }

/-- The same key and expected-match value, every other payload field
different. -/
def rowWVariant : MappingRow :=
  { rowW with
    expected_mismatch_candidate := "QMSv5_01"
    rule := "another justification"
    A_src := "OTHER_A"
    map_source_file := "secondary.md"
    map_source_sha256 := "sha-2" }

/-- A pending placeholder row under the same key. -/
def pendW : MappingRow :=
  { rowW with
    status := "pending"
    expected_match_candidate := ""
    expected_mismatch_candidate := ""
    rule := "" }

/-- An active wildcard-scope row for the same group and arm. -/
def allRowW : MappingRow :=
  { rowW with node_scope := "ALL" }

def mW : Mapping := [ (rowKey rowW, rowW) ]

def mPendW : Mapping := [ (rowKey pendW, pendW) ]

def mAllW : Mapping := [ (rowKey pendW, pendW), (rowKey allRowW, allRowW) ]

def srcFileW : String := "node03_pc_override.md"

def srcShaW : String := "sha-pc"

def fragW : Fragment :=
  { group := "IIIA_Positive_Controls"
    arm := "pc1"
    A_src := "PC_REEXPORT_REF_PACKET"
    QMSv5_01_src := "PC_REEXPORT_CAND_PACKET"
    QMSv5_02_src := "OTHER_CAND" }

/-- The row buildPcRow produces from fragW. -/
def pcRowW : MappingRow :=
  { node_scope := overrideScope
    group := "Positive_Controls"
    arm := "pc1"
    status := "active"
    expected_match_candidate := cand01
    expected_mismatch_candidate := cand02
    rule := ruleAPc
    A_src := "PC_REEXPORT_REF_PACKET"
    QMSv5_01_src := "PC_REEXPORT_CAND_PACKET"
    QMSv5_02_src := "OTHER_CAND"
    map_job_id := overrideJobId
    map_source_file := srcFileW
    map_source_sha256 := srcShaW
    map_manual_override_flag := 1 }

/-- A comparison record whose key resolves to rowW. -/
def recW : Record :=
  [ ( "node_id", "Node02_HVT_A_COMPLETED"),
    ( "group", "G1"),
    ( "arm", "a1"),
    ( "compare_folder", "COMPARE_A_vs_QMSv5_01"),
    ( "pass_fail", "PASS") ]

def fnClassCorrect : String := "classification_correct"

def origMarker : String := "ORIG"

/-- A record that reconciles but already carries a column whose name
collides with an added field. -/
def recCollide : Record :=
  [ ( "node_id", "Node02_HVT_A_COMPLETED"),
    ( "group", "G1"),
    ( "arm", "a1"),
    ( "classification_correct", origMarker) ]

/-- One comparison record with a given node identifier. -/
def mkRecN (n : String) : Record :=
  [ ( "node_id", n), ( "group", "G"), ( "arm", "A") ]

/-- Nine records whose keys are all absent from an empty mapping. -/
def recs9 : List Record :=
  [ mkRecN "N1", mkRecN "N2", mkRecN "N3", mkRecN "N4", mkRecN "N5",
    mkRecN "N6", mkRecN "N7", mkRecN "N8", mkRecN "N9" ]

/-- The eight keys the truncated failure report shows for recs9. -/
def keys8 : List MapKey :=
  [ ( "N1", "G", "A"), ( "N2", "G", "A"), ( "N3", "G", "A"),
    ( "N4", "G", "A"), ( "N5", "G", "A"), ( "N6", "G", "A"),
    ( "N7", "G", "A"), ( "N8", "G", "A") ]

def keyN9 : MapKey := ( "N9", "G", "A")

/-! Helper lemmas shared by the claim theorems. -/

theorem mapGet_mapSet_self (m : Mapping) (k : MapKey) (r : MappingRow) :
    mapGet (mapSet m k r) k = some r := by
  induction m with
  | nil => simp [mapSet, mapGet]
  | cons p t ih =>
    obtain ⟨k2, r2⟩ := p
    by_cases hk : k = k2
    · simp [mapSet, hk, mapGet]
    · simp [mapSet, hk, mapGet, ih]

theorem lookupField_append (k : String) (l1 l2 : Record)
    (h : k ∉ l1.map Prod.fst) :
    lookupField k (l1 ++ l2) = lookupField k l2 := by
  induction l1 with
  | nil => simp
  | cons p t ih =>
    obtain ⟨k2, v⟩ := p
    simp only [List.map_cons, List.mem_cons] at h
    push_neg at h
    simp [lookupField, h.1, ih h.2]

theorem enrichPairs_fst (r : Record) (m : MappingRow) :
    (enrichPairs r m).map Prod.fst = newFieldNames := rfl

theorem preserves_enrichWith (r : Record) (m : MappingRow)
    (h : ∀ k ∈ r.map Prod.fst, k ∉ newFieldNames) :
    preservesOriginal r (enrichWith r m) := by
  intro k hk
  have hnot : k ∉ (enrichPairs r m).map Prod.fst := by
    rw [enrichPairs_fst]
    exact h k hk
  exact lookupField_append k (enrichPairs r m) r hnot

theorem buildPcRow_fields (sf sh : String) (a : Fragment) (r : MappingRow)
    (h : buildPcRow sf sh a = Except.ok r) :
    r.map_manual_override_flag = 1 ∧ r.status = "active" := by
  unfold buildPcRow at h
  cases hd : determineExpectedMatch a.A_src a.QMSv5_01_src a.QMSv5_02_src with
  | error e => rw [hd] at h; cases h
  | ok trip =>
    obtain ⟨em, emm, rule⟩ := trip
    rw [hd] at h
    cases h
    exact ⟨rfl, rfl⟩

theorem buildPcRows_mem (sf sh : String) (fr : List Fragment)
    (out : List MappingRow) (h : buildPcRows sf sh fr = Except.ok out) :
    ∀ r ∈ out, ∃ a, buildPcRow sf sh a = Except.ok r := by
  induction fr generalizing out with
  | nil =>
    simp only [buildPcRows] at h
    cases h
    simp
  | cons a t ih =>
    simp only [buildPcRows] at h
    cases hb : buildPcRow sf sh a with
    | error e => rw [hb] at h; cases h
    | ok r =>
      rw [hb] at h
      cases ht : buildPcRows sf sh t with
      | error e => rw [ht] at h; cases h
      | ok rs =>
        rw [ht] at h
        cases h
        intro x hx
        rcases List.mem_cons.mp hx with hx | hx
        · exact ⟨a, hx ▸ hb⟩
        · exact ih rs ht x hx

theorem reconcileLoop_all_active (mp : Mapping) (rs : List Record)
    (h : ∀ r ∈ rs, ∃ mrow,
      lookupMapping mp r = some mrow ∧ mrow.status = "active") :
    reconcileLoop mp rs = (rs.map (enrichStep mp), []) := by
  induction rs with
  | nil => rfl
  | cons r t ih =>
    obtain ⟨mrow, hl, hs⟩ := h r (List.mem_cons_self r t)
    have ht := ih (fun x hx => h x (List.mem_cons_of_mem r hx))
    simp [reconcileLoop, ht, hl, hs, enrichStep]

theorem reconcileLoop_miss_mem (mp : Mapping) (rs : List Record)
    (r : Record) (hr : r ∈ rs) (hf : activeResolved mp r = false) :
    compKeyNode r ∈ (reconcileLoop mp rs).2 := by
  induction rs with
  | nil => cases hr
  | cons a t ih =>
    rcases List.mem_cons.mp hr with hr | hr
    · subst hr
      unfold activeResolved at hf
      cases hl : lookupMapping mp r with
      | none => simp [reconcileLoop, hl]
      | some mrow =>
        rw [hl] at hf
        have hf2 : decide (mrow.status = "active") = false := hf
        have hs := of_decide_eq_false hf2
        simp [reconcileLoop, hl, hs]
    · have := ih hr
      cases hl : lookupMapping mp a with
      | none => simp [reconcileLoop, hl, this]
      | some mrow =>
        by_cases hs : mrow.status = "active"
        · simp [reconcileLoop, hl, hs, this]
        · simp [reconcileLoop, hl, hs, this]

theorem reconcileLoop_ok_shape (mp : Mapping) (rs : List Record)
    (h : (reconcileLoop mp rs).2 = []) :
    (reconcileLoop mp rs).1 = rs.map (enrichStep mp) := by
  induction rs with
  | nil => rfl
  | cons r t ih =>
    cases hl : lookupMapping mp r with
    | none =>
      exfalso
      have : (reconcileLoop mp (r :: t)).2 =
          compKeyNode r :: (reconcileLoop mp t).2 := by
        simp [reconcileLoop, hl]
      rw [this] at h
      cases h
    | some mrow =>
      by_cases hs : mrow.status = "active"
      · have h2 : (reconcileLoop mp (r :: t)).2 = (reconcileLoop mp t).2 := by
          simp [reconcileLoop, hl, hs]
        have h1 : (reconcileLoop mp (r :: t)).1 =
            enrichWith r mrow :: (reconcileLoop mp t).1 := by
          simp [reconcileLoop, hl, hs]
        rw [h1, ih (h2 ▸ h)]
        simp [enrichStep, hl]
      · exfalso
        have : (reconcileLoop mp (r :: t)).2 =
            compKeyNode r :: (reconcileLoop mp t).2 := by
          simp [reconcileLoop, hl, hs]
        rw [this] at h
        cases h

/-! Claim theorems. -/

/-- C1: inserting a new active row without force under a key holding an
active row keeps the existing row and leaves the mapping unchanged when the
two rows agree on expected_match_candidate (so merging the identical active
row twice is a no-op), and raises the conflicting-authority failure when
they disagree. -/
theorem c1_active_merge (m : Mapping) (ex row : MappingRow)
    (hget : mapGet m (rowKey row) = some ex)
    (hex : ex.status = "active")
    (hrow : row.status = "active") :
    (ex.expected_match_candidate = row.expected_match_candidate →
      put m row false = Except.ok m) ∧
    (ex.expected_match_candidate ≠ row.expected_match_candidate →
      put m row false = Except.error msgConflict) := by
  have hne : ¬ (("active" : String) = "pending") := by decide
  constructor <;> intro hagree <;> simp [put, hget, hex, hrow, hne, hagree]

theorem c1_witness :
    put mW rowW false = Except.ok mW ∧
    put mW rowWConflict false = Except.error msgConflict := by
  constructor
  · exact (c1_active_merge mW rowW rowW (by decide) (by decide)
      (by decide)).1 rfl
  · exact (c1_active_merge mW rowW rowWConflict (by decide) (by decide)
      (by decide)).2 (by decide)

/-- C9: conflict detection compares only expected_match_candidate.  Two
active rows for one key that agree on that field merge silently, keeping
the existing row, whatever the other fields hold. -/
theorem c9_conflict_only_expected_match (m : Mapping) (ex row : MappingRow)
    (hget : mapGet m (rowKey row) = some ex)
    (hex : ex.status = "active")
    (hrow : row.status = "active")
    (hagree : ex.expected_match_candidate = row.expected_match_candidate) :
    put m row false = Except.ok m := by
  have hne : ¬ (("active" : String) = "pending") := by decide
  simp [put, hget, hex, hrow, hne, hagree]

theorem c9_witness :
    rowWVariant ≠ rowW ∧
    rowWVariant.expected_match_candidate = rowW.expected_match_candidate ∧
    put mW rowWVariant false = Except.ok mW :=
  ⟨by decide, by decide,
    c9_conflict_only_expected_match mW rowW rowWVariant (by decide)
      (by decide) (by decide) (by decide)⟩

/-- C4: the classifier is total (every label gets exactly one of the three
kinds), any label whose uppercase form contains the tamper marker
classifies as TAMPER regardless of other substrings, and the label HMAC
alone classifies as BASELINE, not TAMPER. -/
theorem c4_classifier_priority (L : String) :
    (aType L = PacketKind.TAMPER ∨ aType L = PacketKind.PC ∨
      aType L = PacketKind.BASELINE) ∧
    (inStr tamperMarker (pyUpper L) = true → aType L = PacketKind.TAMPER) ∧
    aType hmacLabel = PacketKind.BASELINE := by
  refine ⟨?_, ?_, by decide⟩
  · unfold aType
    split
    · exact Or.inl rfl
    · split
      · exact Or.inr (Or.inl rfl)
      · exact Or.inr (Or.inr rfl)
  · intro hm
    have ht : looksTamper L = true := by
      unfold looksTamper
      simp [hm]
    unfold aType
    simp [ht]

theorem c4_witness :
    inStr tamperMarker (pyUpper pcTamperLabel) = true ∧
    looksPc pcTamperLabel = true ∧
    aType pcTamperLabel = PacketKind.TAMPER :=
  ⟨by decide, by decide, (c4_classifier_priority pcTamperLabel).2.1
    (by decide)⟩

/-- C2 (counterexample): with reference BASELINE_A_SRC, one tamper-marked
candidate and an empty second candidate, the reference classifies as
BASELINE and exactly one candidate classifies as TAMPER, yet the resolver
raises the missing-input error instead of returning the non-tamper
candidate, refuting the claim as universally stated. -/
theorem c2_counterexample :
    aType (pyStrip exRefBaseline) = PacketKind.BASELINE ∧
    looksTamper (pyStrip exCandTamper) = true ∧
    looksTamper (pyStrip emptyLabel) = false ∧
    determineExpectedMatch exRefBaseline exCandTamper emptyLabel =
      Except.error msgMissingSrc := by decide

/-- C2 (amended): provided all three inputs are non-empty after stripping,
a BASELINE reference with exactly one tamper-classified candidate resolves
to the non-tamper candidate as expected match and the tamper candidate as
expected mismatch, the two being distinct; with no tamper candidate the
resolver fails instead of guessing. -/
theorem c2_baseline_resolution (aSrc q1 q2 : String)
    (ha : strIsEmpty (pyStrip aSrc) = false)
    (h1 : strIsEmpty (pyStrip q1) = false)
    (h2 : strIsEmpty (pyStrip q2) = false)
    (hbase : aType (pyStrip aSrc) = PacketKind.BASELINE) :
    (looksTamper (pyStrip q1) = true → looksTamper (pyStrip q2) = false →
      determineExpectedMatch aSrc q1 q2 =
        Except.ok (cand02, cand01, ruleABaseline) ∧ cand02 ≠ cand01) ∧
    (looksTamper (pyStrip q2) = true → looksTamper (pyStrip q1) = false →
      determineExpectedMatch aSrc q1 q2 =
        Except.ok (cand01, cand02, ruleABaseline) ∧ cand01 ≠ cand02) ∧
    (looksTamper (pyStrip q1) = false → looksTamper (pyStrip q2) = false →
      isErr (determineExpectedMatch aSrc q1 q2) = true) := by
  refine ⟨?_, ?_, ?_⟩ <;> intro ht1 ht2
  · exact ⟨by simp [determineExpectedMatch, ha, h1, h2, hbase, ht1, ht2],
      by decide⟩
  · exact ⟨by simp [determineExpectedMatch, ha, h1, h2, hbase, ht1, ht2],
      by decide⟩
  · simp [determineExpectedMatch, ha, h1, h2, hbase, ht1, ht2, isErr]

theorem c2_witness :
    determineExpectedMatch exRefBaseline exCandTamper exCandNormal =
      Except.ok (cand02, cand01, ruleABaseline) ∧ cand02 ≠ cand01 :=
  (c2_baseline_resolution exRefBaseline exCandTamper exCandNormal
    (by decide) (by decide) (by decide) (by decide)).1 (by decide)
    (by decide)

/-- C7: the resolver fails whenever any input is empty after stripping,
and whenever the reference classifies as TAMPER while the two candidates
are both tamper-classified or both not; in each case no pair is returned. -/
theorem c7_resolver_refusals (aSrc q1 q2 : String) :
    ((strIsEmpty (pyStrip aSrc) || strIsEmpty (pyStrip q1) ||
        strIsEmpty (pyStrip q2)) = true →
      isErr (determineExpectedMatch aSrc q1 q2) = true) ∧
    (aType (pyStrip aSrc) = PacketKind.TAMPER →
      looksTamper (pyStrip q1) = looksTamper (pyStrip q2) →
      isErr (determineExpectedMatch aSrc q1 q2) = true) := by
  constructor
  · intro h
    simp [determineExpectedMatch, h, isErr]
  · intro hT heq
    cases hemp : (strIsEmpty (pyStrip aSrc) || strIsEmpty (pyStrip q1) ||
        strIsEmpty (pyStrip q2)) with
    | true => simp [determineExpectedMatch, hemp, isErr]
    | false =>
      cases hc : looksTamper (pyStrip q1) with
      | false =>
        have hc2 : looksTamper (pyStrip q2) = false := by
          rw [← heq]; exact hc
        simp [determineExpectedMatch, hemp, hT, hc, hc2, isErr]
      | true =>
        have hc2 : looksTamper (pyStrip q2) = true := by
          rw [← heq]; exact hc
        simp [determineExpectedMatch, hemp, hT, hc, hc2, isErr]

theorem c7_witness :
    (strIsEmpty (pyStrip emptyLabel) || strIsEmpty (pyStrip exCandTamper) ||
      strIsEmpty (pyStrip exCandNormal)) = true ∧
    isErr (determineExpectedMatch emptyLabel exCandTamper exCandNormal) =
      true ∧
    aType (pyStrip tamperRefLabel) = PacketKind.TAMPER ∧
    looksTamper (pyStrip tamperCand1) = looksTamper (pyStrip tamperCand2) ∧
    isErr (determineExpectedMatch tamperRefLabel tamperCand1 tamperCand2) =
      true :=
  ⟨by decide,
    (c7_resolver_refusals emptyLabel exCandTamper exCandNormal).1
      (by decide),
    by decide, by decide,
    (c7_resolver_refusals tamperRefLabel tamperCand1 tamperCand2).2
      (by decide) (by decide)⟩

/-- C5: merge precedence.  A pending row followed by an active row for the
same key yields the active row; a force insertion (manual override)
replaces whatever row holds the key, whatever its state; and every row
parse_pc_override_fragments emits carries the manual-override marker and
is active, so the forced replacement lands a marked row in the mapping. -/
theorem c5_override_precedence (m : Mapping) (ex row : MappingRow)
    (frags : List Fragment) (sf sh : String) (out : List MappingRow)
    (hget : mapGet m (rowKey row) = some ex) :
    (ex.status = "pending" → row.status = "active" →
      put m row false = Except.ok (mapSet m (rowKey row) row)) ∧
    (put m row true = Except.ok (mapSet m (rowKey row) row)) ∧
    (mapGet (mapSet m (rowKey row) row) (rowKey row) = some row) ∧
    (parsePcOverrideFragments frags sf sh = Except.ok out →
      ∀ pr ∈ out, pr.map_manual_override_flag = 1 ∧ pr.status = "active") := by
  refine ⟨?_, ?_, mapGet_mapSet_self m (rowKey row) row, ?_⟩
  · intro hp ha
    simp [put, hget, hp, ha]
  · simp [put, hget]
  · intro hp pr hm
    unfold parsePcOverrideFragments at hp
    by_cases hfe : frags.isEmpty
    · rw [if_pos hfe] at hp
      cases hp
    · rw [if_neg hfe] at hp
      obtain ⟨a, hb⟩ := buildPcRows_mem sf sh frags out hp pr hm
      exact buildPcRow_fields sf sh a pr hb

theorem c5_witness :
    put mPendW rowW false = Except.ok (mapSet mPendW (rowKey rowW) rowW) ∧
    put mW pendW true = Except.ok (mapSet mW (rowKey pendW) pendW) ∧
    parsePcOverrideFragments [ fragW ] srcFileW srcShaW =
      Except.ok [ pcRowW ] ∧
    pcRowW.map_manual_override_flag = 1 ∧ pcRowW.status = "active" := by
  refine ⟨?_, ?_, by decide, ?_⟩
  · exact (c5_override_precedence mPendW pendW rowW [] srcFileW srcShaW []
      (by decide)).1 (by decide) (by decide)
  · exact (c5_override_precedence mW rowW pendW [] srcFileW srcShaW []
      (by decide)).2.1
  · exact (c5_override_precedence mW rowW rowW [ fragW ] srcFileW srcShaW
      [ pcRowW ] (by decide)).2.2.2 (by decide) pcRowW (by simp)

/-- C6: when every record resolves, node-specific first with wildcard
fallback, to an active mapping row, reconciliation returns exactly one
enriched record per input record in input order and the unmatched-key list
is empty. -/
theorem c6_reconciliation_completeness (mp : Mapping) (rs : List Record)
    (h : ∀ r ∈ rs, ∃ mrow,
      lookupMapping mp r = some mrow ∧ mrow.status = "active") :
    reconcileAll mp rs = Except.ok (rs.map (enrichStep mp)) ∧
    (reconcileLoop mp rs).2 = [] := by
  have hl := reconcileLoop_all_active mp rs h
  exact ⟨by simp [reconcileAll, hl], by simp [hl]⟩

theorem c6_witness :
    reconcileAll mW [ recW ] = Except.ok ([ recW ].map (enrichStep mW)) ∧
    (reconcileLoop mW [ recW ]).2 = [] := by
  apply c6_reconciliation_completeness
  intro r hr
  rw [List.mem_singleton] at hr
  subst hr
  exact ⟨rowW, by decide, by decide⟩

/-- C3 (counterexample): with nine comparison records whose distinct keys
are all absent from the mapping, reconciliation fails, but the failure
report lists only the first eight sorted keys; the ninth missing key is
dropped, so the report does not enumerate every missing key. -/
theorem c3_counterexample :
    reconcileAll ([] : Mapping) recs9 = Except.error (9, keys8) ∧
    keyN9 ∈ (reconcileLoop ([] : Mapping) recs9).2 ∧
    keyN9 ∉ keys8 := by decide

/-- C3 (amended): if any record lacks an active mapping the whole
reconciliation fails with no dataset emitted, and the failure report
carries the count of deduplicated missing keys together with the first
eight of them in sorted order (so the full enumeration is truncated to
eight). -/
theorem c3_fail_closed_truncated (mp : Mapping) (rs : List Record)
    (h : ∃ r ∈ rs, activeResolved mp r = false) :
    reconcileAll mp rs =
      Except.error
        ((sortedUniq (reconcileLoop mp rs).2).length,
          (sortedUniq (reconcileLoop mp rs).2).take 8) := by
  obtain ⟨r, hr, hf⟩ := h
  have hmem := reconcileLoop_miss_mem mp rs r hr hf
  cases hl2 : (reconcileLoop mp rs).2 with
  | nil => rw [hl2] at hmem; cases hmem
  | cons a t => simp [reconcileAll, hl2]

theorem c3_witness :
    reconcileAll ([] : Mapping) [ recW ] =
      Except.error
        ((sortedUniq (reconcileLoop ([] : Mapping) [ recW ]).2).length,
          (sortedUniq (reconcileLoop ([] : Mapping) [ recW ]).2).take 8) :=
  c3_fail_closed_truncated [] [ recW ] ⟨recW, by simp, by decide⟩

/-- C8 (counterexample): a record that already carries a column named
classification_correct reconciles successfully, but the enriched record no
longer returns the original value for that original field name: the added
fields overwrite colliding original columns. -/
theorem c8_counterexample :
    reconcileAll mW [ recCollide ] =
      Except.ok [ enrichWith recCollide rowW ] ∧
    lookupField fnClassCorrect recCollide = some origMarker ∧
    lookupField fnClassCorrect (enrichWith recCollide rowW) ≠
      some origMarker := by decide

/-- C8 (amended): for every successfully reconciled record whose original
field names are disjoint from the fourteen added field names, the enriched
record restricted to the original field names is identical, lookup by
lookup, to the input record. -/
theorem c8_enrichment_additive (mp : Mapping) (rs outs : List Record)
    (hok : reconcileAll mp rs = Except.ok outs)
    (hdisj : ∀ r ∈ rs, ∀ k ∈ r.map Prod.fst, k ∉ newFieldNames) :
    List.Forall₂ preservesOriginal rs outs := by
  simp only [reconcileAll] at hok
  split at hok
  case isTrue hemp =>
    injection hok with h1
    have hnil : (reconcileLoop mp rs).2 = [] := by
      rwa [List.isEmpty_iff] at hemp
    rw [← h1, reconcileLoop_ok_shape mp rs hnil]
    rw [List.forall₂_map_right_iff]
    rw [List.forall₂_same]
    intro r hr
    unfold enrichStep
    cases hl : lookupMapping mp r with
    | none => intro k hk; rfl
    | some mrow => exact preserves_enrichWith r mrow (hdisj r hr)
  case isFalse => cases hok

theorem c8_witness :
    List.Forall₂ preservesOriginal [ recW ] [ enrichWith recW rowW ] := by
  apply c8_enrichment_additive mW [ recW ] [ enrichWith recW rowW ]
  · decide
  · decide

/-- C10: a pending node-specific row shadows the wildcard scope.  When the
exact key holds a pending row and an active wildcard row exists for the
same group and arm, the lookup returns the pending row (the wildcard key is
not consulted) and the record is reported unmatched, failing the run. -/
theorem c10_pending_shadows_wildcard (mp : Mapping) (r : Record)
    (pend act : MappingRow)
    (hn : mapGet mp (compKeyNode r) = some pend)
    (hp : pend.status = "pending")
    (hw : mapGet mp (keyAll r) = some act)
    (ha : act.status = "active") :
    lookupMapping mp r = some pend ∧
    reconcileAll mp [ r ] = Except.error (1, [ compKeyNode r ]) := by
  have hne : ¬ (("pending" : String) = "active") := by decide
  have hl : lookupMapping mp r = some pend := by
    simp [lookupMapping, hn]
  refine ⟨hl, ?_⟩
  have hloop : reconcileLoop mp [ r ] = ([], [ compKeyNode r ]) := by
    simp [reconcileLoop, hl, hp, hne]
  simp [reconcileAll, hloop, sortedUniq, dedupKeys, sortKeys, insertKey]

theorem c10_witness :
    lookupMapping mAllW recW = some pendW ∧
    reconcileAll mAllW [ recW ] = Except.error (1, [ compKeyNode recW ]) :=
  c10_pending_shadows_wildcard mAllW recW pendW allRowW (by decide)
    (by decide) (by decide) (by decide)

end QMS
